import Mathlib

set_option maxRecDepth 8000

namespace HCache

/-- Boolean test that one character list begins with another, used to model the
byte-wise Go primitives strings.HasPrefix and strings.Contains. -/
def charsBeginWith : List Char → List Char → Bool
  | [], _ => true
  | _ :: _, [] => false
  | a :: as, b :: bs => a == b && charsBeginWith as bs

/-- Model of Go strings.HasPrefix (src/main.go line 212). -/
def strStartsWith (s pre : String) : Bool := charsBeginWith pre.toList s.toList

/-- Helper for substring search: does the pattern occur starting at any suffix. -/
def hasSubstrAux (pat : List Char) : List Char → Bool
  | [] => pat.isEmpty
  | c :: rest => charsBeginWith pat (c :: rest) || hasSubstrAux pat rest

/-- Model of Go strings.Contains (src/main.go lines 184 and 207). -/
def strContains (s pat : String) : Bool := hasSubstrAux pat.toList s.toList

/-- Modelled from the spec: the CacheStatus record returned by the external
residency checker pcstat.GetPcStatus (the pcstat package is an external
collaborator of this repository, not part of its source): display name, file
size in bytes, page size, total and resident page counts, fraction cached, and
the optional per-page residency map. -/
structure PcStatus where
  name : String
  size : Nat
  pageSize : Nat
  totalPages : Nat
  residentPages : Nat
  percentCached : ℚ
  perPage : Option (List Bool)
  deriving DecidableEq

/-- The loop body of uniqueSlice (src/main.go lines 59 to 71): walk the slice
left to right and keep a value only the first time it is seen.  The Go map
called found is modelled by the accumulator list, whose members are exactly the
keys inserted so far; the compacting writes into the prefix of the slice are
modelled by emitting the kept element. -/
def uniqueAux (found : List String) : List String → List String
  | [] => []
  | x :: xs => if x ∈ found then uniqueAux found xs else x :: uniqueAux (x :: found) xs

/-- uniqueSlice from src/main.go: in-place first-occurrence deduplication. -/
def uniqueSlice (l : List String) : List String := uniqueAux [] l

/-- Stated from the spec's words, for comparison with uniqueSlice: keep each
distinct path's first occurrence and drop every later repeat. -/
def firstOccurrences : List String → List String
  | [] => []
  | x :: xs => x :: firstOccurrences (xs.filter (fun y => decide (y ≠ x)))
termination_by l => l.length
decreasing_by
  simp only [List.length_cons]
  exact Nat.lt_succ_of_le (List.length_filter_le _ _)

/-- The log line written by getStatsFromFiles for a failed path
(src/main.go line 79, format string "skipping %q: %v"). -/
def skipFileLog (fname err : String) : String :=
  "skipping \"" ++ fname ++ "\": " ++ err

/-- Model of Go path.Base, used by getStatsFromFiles under the -bname flag:
strip trailing slashes and return the last path element; the empty string gives
".", an all-slash path gives "/". -/
def goPathBase (p : String) : String :=
  if p = "" then "."
  else
    let rev := p.toList.reverse.dropWhile (fun c => c == '/')
    if rev = [] then "/"
    else String.mk (rev.takeWhile (fun c => !(c == '/'))).reverse

/-- getStatsFromFiles from src/main.go lines 73 to 93.  The external call
pcstat.GetPcStatus is an oracle argument; the result is the collected status
list in input order together with the log lines written for skipped paths. -/
def getStatsFromFiles (bnameFlag : Bool) (getPcStatus : String → Except String PcStatus) :
    List String → List PcStatus × List String
  | [] => ([], [])
  | fname :: rest =>
    let r := getStatsFromFiles bnameFlag getPcStatus rest
    match getPcStatus fname with
    | .error e => (r.1, skipFileLog fname e :: r.2)
    | .ok status =>
      ((if bnameFlag then { status with name := goPathBase fname } else status) :: r.1, r.2)

/-- Modelled from the spec: the comparator behind sort.Sort(PcStatusList(...))
(the Less method of PcStatusList is repository code not present under src/):
descending percentCached, ties broken by descending residentPages, then by
ascending name. -/
def pcLess (a b : PcStatus) : Bool :=
  if a.percentCached ≠ b.percentCached then decide (b.percentCached < a.percentCached)
  else if a.residentPages ≠ b.residentPages then decide (b.residentPages < a.residentPages)
  else decide (a.name < b.name)

/-- Go sort.Sort on a PcStatusList (src/main.go lines 141 and 171): a sorted
permutation of the input with respect to the comparator, modelled as insertion
sort. -/
def sortStats (l : List PcStatus) : List PcStatus :=
  List.insertionSort (fun a b => pcLess a b = true) l

/-- The zero value of the status record: Go make allocates the backing array of
a slice zero-initialized, so positions between length and capacity hold this
value. -/
def zeroStatus : PcStatus :=
  { name := "", size := 0, pageSize := 0, totalPages := 0, residentPages := 0,
    percentCached := 0, perPage := none }

/-- The Go slice expression stats[:n] on a slice of the given length and
capacity (src/main.go line 143): a bound between the length and the capacity
re-exposes zero values from the backing array; a bound below zero or above the
capacity panics at run time, modelled as none. -/
def goReslice (l : List PcStatus) (cap : Nat) (n : Int) : Option (List PcStatus) :=
  if 0 ≤ n ∧ n ≤ (cap : Int) then
    some ((l ++ List.replicate (cap - l.length) zeroStatus).take n.toNat)
  else none

/-- The tail of top() in src/main.go (lines 137 to 144) once the per-process
path lists have been concatenated into files: deduplicate, collect stats (the
stats slice is allocated with capacity equal to the number of unique files),
sort, and take stats[:top]. -/
def topRun (bnameFlag : Bool) (getPcStatus : String → Except String PcStatus)
    (files : List String) (topN : Int) : Option (List PcStatus) :=
  let u := uniqueSlice files
  let stats := (getStatsFromFiles bnameFlag getPcStatus u).1
  goReslice (sortStats stats) u.length topN

/-- A directory entry of the per-process fd directory, as seen by os.ReadDir. -/
structure FdEntry where
  name : String
  isDir : Bool
  deriving DecidableEq

/-- The part of os.Lstat's answer that getPidLds inspects: whether the entry is
a symbolic link. -/
structure FdInfo where
  isSymlink : Bool
  deriving DecidableEq

/-- Outcome of getPidLds: either the run was aborted by log.Fatalf, or a list
of resolved paths was returned together with the log lines written. -/
inductive PidLdsResult where
  | fatal (msg : String)
  | ok (paths : List String) (logs : List String)
  deriving DecidableEq

/-- The fd directory name built at src/main.go line 181. -/
def fdDirName (pid : Int) : String := "/proc/" ++ toString pid ++ "/fd"

/-- The per-descriptor symlink name built at src/main.go line 196. -/
def fdSymlinkPath (pid : Int) (entryName : String) : String :=
  "/proc/" ++ toString pid ++ "/fd/" ++ entryName

/-- The error substring getPidLds treats as an expected race
(src/main.go lines 184 and 207). -/
def noSuchFileMsg : String := "no such file or directory"

/-- The filter applied to a resolved symlink target at src/main.go line 212:
absolute, and not under /dev or /proc. -/
def keepTarget (target : String) : Bool :=
  strStartsWith target "/" && !strStartsWith target "/dev" && !strStartsWith target "/proc"

/-- The per-entry body of the getPidLds loop (src/main.go lines 194 to 217),
restricted to the target it inserts into the map: none when the entry is a
directory, fails lstat, is not a symlink, fails resolution, or is filtered out;
some target when the resolved target passes the filter. -/
def entryTarget (pid : Int) (lstat : String → Except String FdInfo)
    (evalSymlinks : String → Except String String) (e : FdEntry) : Option String :=
  if e.isDir then none
  else
    match lstat (fdSymlinkPath pid e.name) with
    | .error _ => none
    | .ok fi =>
      if fi.isSymlink then
        match evalSymlinks (fdSymlinkPath pid e.name) with
        | .error _ => none
        | .ok target => if keepTarget target then some target else none
      else none

/-- The per-entry log line of the getPidLds loop: lstat failures are always
logged; resolution failures are logged unless the message contains the
no-such-file substring; nothing else logs. -/
def entryLog (pid : Int) (lstat : String → Except String FdInfo)
    (evalSymlinks : String → Except String String) (e : FdEntry) : Option String :=
  if e.isDir then none
  else
    match lstat (fdSymlinkPath pid e.name) with
    | .error err =>
      some ("could not open '" ++ fdSymlinkPath pid e.name ++ "' for read: " ++ err)
    | .ok fi =>
      if fi.isSymlink then
        match evalSymlinks (fdSymlinkPath pid e.name) with
        | .error err =>
          if strContains err noSuchFileMsg then none
          else some ("could not inspect symlink '" ++ fdSymlinkPath pid e.name ++ "': " ++ err)
        | .ok _ => none
      else none

/-- getPidLds from src/main.go lines 175 to 226.  The filesystem is given by
oracles: readDir is the outcome of os.ReadDir on the fd directory, lstat of
os.Lstat, evalSymlinks of filepath.EvalSymlinks.  The final for-range over the
Go map of accepted targets iterates in an unspecified order, modelled by the
mapRange parameter applied to the insertion-ordered key list; log.Fatalf aborts
the whole run, modelled by the fatal constructor. -/
def getPidLds (pid selfPid : Int) (readDir : Except String (List FdEntry))
    (lstat : String → Except String FdInfo)
    (evalSymlinks : String → Except String String)
    (mapRange : List String → List String) : PidLdsResult :=
  if pid = selfPid then .ok [] []
  else
    match readDir with
    | .error err =>
      if strContains err noSuchFileMsg then
        .ok [] ["skipping " ++ fdDirName pid ++ ": " ++ err]
      else .fatal ("could not open dir '" ++ fdDirName pid ++ "': " ++ err)
    | .ok entries =>
      .ok (mapRange (uniqueSlice (entries.filterMap (entryTarget pid lstat evalSymlinks))))
        (entries.filterMap (entryLog pid lstat evalSymlinks))

/-- Which branch of main() runs (src/main.go lines 147 to 173). -/
inductive RunAction where
  | topMode (n : Int)
  | fileMode (files : List String)
  | usage
  deriving DecidableEq

/-- The dispatch structure of main(): a nonzero -top flag runs top(topFlag) and
exits; otherwise the explicit arguments, extended by the -pid process's
resolved paths when -pid is nonzero, feed the default path; an empty file list
prints usage and exits nonzero.  pidFiles stands for the path list getPidLds
returns for the -pid process. -/
def mainDispatch (topFlag pidFlag : Int) (args pidFiles : List String) : RunAction :=
  if topFlag ≠ 0 then .topMode topFlag
  else
    let files := args ++ (if pidFlag ≠ 0 then pidFiles else [])
    if files = [] then .usage else .fileMode files

/-- The default and explicit-file branch of main() (src/main.go lines 170 to
172): collect stats over the files in argument order, then sort.Sort with the
ranking comparator, then hand the result to the formatter. -/
def defaultModeOutput (bnameFlag : Bool) (getPcStatus : String → Except String PcStatus)
    (files : List String) : List PcStatus :=
  sortStats (getStatsFromFiles bnameFlag getPcStatus files).1

/-- The rational one half in constructor form, so concrete comparisons reduce
inside the kernel. -/
def halfQ : ℚ := Rat.mk' 1 2 (by omega) (Nat.coprime_one_left 2)

/-- Status of a file that is half resident, four pages of four kibibytes. -/
def stA : PcStatus :=
  { name := "/tmp/a", size := 16384, pageSize := 4096, totalPages := 4,
    residentPages := 2, percentCached := halfQ, perPage := none }

/-- Status of a file that is fully resident. -/
def stB : PcStatus :=
  { name := "/tmp/b", size := 16384, pageSize := 4096, totalPages := 4,
    residentPages := 4, percentCached := 1, perPage := none }

/-- Status of a file with nothing resident. -/
def stC : PcStatus :=
  { name := "/tmp/c", size := 4096, pageSize := 4096, totalPages := 1,
    residentPages := 0, percentCached := 0, perPage := none }

/-- A concrete residency-check oracle knowing the three fixture files. -/
def checkAll : String → Except String PcStatus := fun f =>
  if f = "/tmp/a" then .ok stA
  else if f = "/tmp/b" then .ok stB
  else if f = "/tmp/c" then .ok stC
  else .error "no such file or directory"

/-- A concrete oracle for which exactly the middle fixture path fails. -/
def checkMidFails : String → Except String PcStatus := fun f =>
  if f = "/tmp/a" then .ok stA
  else if f = "/tmp/c" then .ok stC
  else .error "permission denied"

/-- An lstat oracle that is never consulted in the scenarios that use it. -/
def lstatNone : String → Except String FdInfo := fun _ => .error "unused"

/-- A symlink-resolution oracle that is never consulted. -/
def evalNone : String → Except String String := fun _ => .error "unused"

/-- An lstat oracle reporting every entry as a symlink. -/
def lstatSym : String → Except String FdInfo := fun _ => .ok { isSymlink := true }

/-- A resolution oracle for two descriptors of process 7. -/
def evalTwo : String → Except String String := fun s =>
  if s = "/proc/7/fd/0" then .ok "/fileA"
  else if s = "/proc/7/fd/1" then .ok "/fileB"
  else .error "no such file or directory"

/-- Descriptor entry 0 of the fixture process. -/
def fdE0 : FdEntry := { name := "0", isDir := false }

/-- Descriptor entry 1 of the fixture process. -/
def fdE1 : FdEntry := { name := "1", isDir := false }

/-- Membership in the dedup loop's output: a value appears exactly when it
occurs in the remaining input and was not already recorded as seen. -/
theorem mem_uniqueAux (l : List String) : ∀ (found : List String) (x : String),
    x ∈ uniqueAux found l ↔ x ∈ l ∧ x ∉ found := by
  induction l with
  | nil => intro found x; simp [uniqueAux]
  | cons a as ih =>
    intro found x
    by_cases ha : a ∈ found
    · simp only [uniqueAux, if_pos ha, ih, List.mem_cons]
      constructor
      · rintro ⟨hx, hnf⟩; exact ⟨Or.inr hx, hnf⟩
      · rintro ⟨hx | hx, hnf⟩
        · exact absurd (hx ▸ ha) hnf
        · exact ⟨hx, hnf⟩
    · simp only [uniqueAux, if_neg ha, List.mem_cons, ih, List.mem_cons]
      constructor
      · rintro (rfl | ⟨hx, hnf⟩)
        · exact ⟨Or.inl rfl, ha⟩
        · exact ⟨Or.inr hx, fun h => hnf (Or.inr h)⟩
      · rintro ⟨rfl | hx, hnf⟩
        · exact Or.inl rfl
        · by_cases hxa : x = a
          · exact Or.inl hxa
          · exact Or.inr ⟨hx, fun h => (h.elim hxa hnf)⟩

/-- The dedup loop never emits a value twice. -/
theorem nodup_uniqueAux (l : List String) : ∀ found : List String,
    (uniqueAux found l).Nodup := by
  induction l with
  | nil => intro found; simp [uniqueAux]
  | cons a as ih =>
    intro found
    by_cases ha : a ∈ found
    · simpa [uniqueAux, if_pos ha] using ih found
    · simp only [uniqueAux, if_neg ha, List.nodup_cons]
      refine ⟨fun h => ?_, ih _⟩
      exact ((mem_uniqueAux as (a :: found) a).mp h).2 (List.mem_cons_self a found)

/-- The dedup loop computes the first-occurrence sublist of the part of the
input not yet seen. -/
theorem uniqueAux_eq_firstOccurrences (l : List String) : ∀ found : List String,
    uniqueAux found l = firstOccurrences (l.filter (fun y => decide (y ∉ found))) := by
  induction l with
  | nil => intro found; simp [uniqueAux, firstOccurrences]
  | cons a as ih =>
    intro found
    by_cases ha : a ∈ found
    · simp only [uniqueAux, if_pos ha, List.filter_cons, decide_eq_true_eq]
      rw [if_neg (by simpa using ha)]
      exact ih found
    · simp only [uniqueAux, if_neg ha, List.filter_cons, decide_eq_true_eq]
      rw [if_pos (by simpa using ha)]
      rw [firstOccurrences, List.filter_filter]
      rw [ih (a :: found)]
      have hfil : List.filter (fun y => decide (y ∉ a :: found)) as
          = List.filter (fun y => decide (y ≠ a) && decide (y ∉ found)) as := by
        apply List.filter_congr
        intro y _
        by_cases hya : y = a
        · simp [hya]
        · by_cases hyf : y ∈ found <;> simp [hya, hyf]
      rw [hfil]

/-- Claim C5: for every input sequence of paths, possibly with repeats, the
output of uniqueSlice contains each distinct path exactly once (it is duplicate
free and has exactly the members of the input), in the order of each path's
first occurrence in the input (it equals the first-occurrence sublist, and the
example [a, b, a, c, b] yields [a, b, c]). -/
theorem uniqueSlice_first_occurrence_dedup (l : List String) :
    uniqueSlice l = firstOccurrences l ∧ (uniqueSlice l).Nodup ∧
      (∀ x, x ∈ uniqueSlice l ↔ x ∈ l) ∧
      uniqueSlice ["a", "b", "a", "c", "b"] = ["a", "b", "c"] := by
  refine ⟨?_, nodup_uniqueAux l [], fun x => by simpa using mem_uniqueAux l [] x, by decide⟩
  have h := uniqueAux_eq_firstOccurrences l []
  simpa using h

/-- The collected statuses are exactly the answers of the oracle on the paths
where it succeeds, in input order. -/
theorem getStatsFromFiles_fst (getPcStatus : String → Except String PcStatus) :
    ∀ files : List String,
      (getStatsFromFiles false getPcStatus files).1
        = files.filterMap (fun f => (getPcStatus f).toOption) := by
  intro files
  induction files with
  | nil => simp [getStatsFromFiles]
  | cons f fs ih =>
    cases hc : getPcStatus f with
    | error e => simp [getStatsFromFiles, hc, ih, Except.toOption]
    | ok s => simp [getStatsFromFiles, hc, ih, Except.toOption]

/-- The log lines are exactly one skip line per failing path, naming the path
and the underlying reason, in input order. -/
theorem getStatsFromFiles_snd (getPcStatus : String → Except String PcStatus) :
    ∀ files : List String,
      (getStatsFromFiles false getPcStatus files).2
        = files.filterMap (fun f =>
            match getPcStatus f with
            | .error e => some (skipFileLog f e)
            | .ok _ => none) := by
  intro files
  induction files with
  | nil => simp [getStatsFromFiles]
  | cons f fs ih =>
    cases hc : getPcStatus f with
    | error e => simp [getStatsFromFiles, hc, ih]
    | ok s => simp [getStatsFromFiles, hc, ih]

/-- Claim C6: for every input path sequence, getStatsFromFiles logs each
residency-check failure with the offending path and reason, excludes exactly
the failing paths, and completes the batch: the result holds one record per
succeeding path in input order, the log one line per failing path; on the
fixture where exactly the middle of three paths fails, the result is exactly
the first and third records and the single log line names the middle path. -/
theorem getStatsFromFiles_skips_failures_keeps_order
    (getPcStatus : String → Except String PcStatus) (files : List String) :
    (getStatsFromFiles false getPcStatus files).1
        = files.filterMap (fun f => (getPcStatus f).toOption) ∧
      (getStatsFromFiles false getPcStatus files).2
        = files.filterMap (fun f =>
            match getPcStatus f with
            | .error e => some (skipFileLog f e)
            | .ok _ => none) ∧
      getStatsFromFiles false checkMidFails ["/tmp/a", "/tmp/b", "/tmp/c"]
        = ([stA, stC], [skipFileLog "/tmp/b" "permission denied"]) :=
  ⟨getStatsFromFiles_fst getPcStatus files, getStatsFromFiles_snd getPcStatus files, by decide⟩

/-- Claim C1, evaluated at the failing input: with a single collected record
(one unique file, residency check succeeding) a request for the top 2 slices
stats[:2] past the slice capacity 1 and panics, modelled as none, instead of
returning all records; the same run with top 1 succeeds and returns the first
record after ranking. -/
theorem topRun_slice_overflow :
    topRun false checkAll ["/tmp/a"] 2 = none ∧
      topRun false checkAll ["/tmp/a"] 1 = some [stA] := by decide

/-- Claim C2, evaluated at the failing input: in explicit-file mode with the
arguments [/tmp/a, /tmp/b], where /tmp/b is fully cached and /tmp/a half
cached, main sorts the records with the ranking comparator before output, so
the output order is [/tmp/b, /tmp/a], not the argument order. -/
theorem defaultMode_output_is_sorted_not_arg_order :
    defaultModeOutput false checkAll ["/tmp/a", "/tmp/b"] = [stB, stA] ∧
      [stB, stA] ≠ [stA, stB] := by decide

/-- Counterexample to claim C7: a negative -top value is nonzero, so main
enters top-N mode for it rather than treating it as no limiting requested. -/
theorem negative_top_enters_top_mode :
    mainDispatch (-1) 7 ["/tmp/a"] ["/x"] = RunAction.topMode (-1) := by decide

/-- Claim C7 as amended: top-N mode is entered exactly when the requested
value is nonzero; only N equal to zero disables limiting, while a negative N
still enters top-N mode. -/
theorem top_mode_entered_iff_nonzero (t pidFlag : Int) (args pidFiles : List String) :
    mainDispatch t pidFlag args pidFiles = RunAction.topMode t ↔ t ≠ 0 := by
  by_cases ht : t = 0
  · subst ht
    constructor
    · intro h
      exfalso
      simp only [mainDispatch] at h
      rw [if_neg (by simp)] at h
      split at h <;> split at h <;> exact RunAction.noConfusion h
    · intro h
      exact absurd rfl h
  · simp [mainDispatch, ht]

/-- Claim C9: when the -top flag is nonzero, main runs top mode and exits
before looking at the explicit file arguments or the -pid flag, so the chosen
action is top mode and is the same whatever the arguments and -pid value
are. -/
theorem top_mode_ignores_args_and_pid (t : Int) (ht : t ≠ 0) (p q : Int)
    (args args2 pidFiles pidFiles2 : List String) :
    mainDispatch t p args pidFiles = RunAction.topMode t ∧
      mainDispatch t p args pidFiles = mainDispatch t q args2 pidFiles2 := by
  simp [mainDispatch, ht]

/-- Witness for claim C9 at a concrete input: with -top 3, the explicit
argument list and -pid value do not change the chosen action. -/
theorem top_mode_ignores_args_and_pid_witness :
    mainDispatch 3 4 ["/tmp/a"] ["/x"] = RunAction.topMode 3 ∧
      mainDispatch 3 4 ["/tmp/a"] ["/x"] = mainDispatch 3 0 [] [] :=
  top_mode_ignores_args_and_pid 3 (by decide) 4 0 ["/tmp/a"] [] ["/x"] []

/-- Counting a status in the collected list counts the input occurrences of
the one path the oracle maps to it. -/
theorem count_filterMap_toOption (getPcStatus : String → Except String PcStatus)
    (p : String) (s : PcStatus) (hp : getPcStatus p = Except.ok s)
    (hinj : ∀ q, getPcStatus q = Except.ok s → q = p) :
    ∀ files : List String,
      (files.filterMap (fun f => (getPcStatus f).toOption)).count s = files.count p := by
  intro files
  induction files with
  | nil => simp
  | cons f fs ih =>
    cases hc : getPcStatus f with
    | error e =>
      have hfp : f ≠ p := by
        intro h; subst h
        rw [hp] at hc
        exact Except.noConfusion hc
      rw [List.filterMap_cons_none (by show (getPcStatus f).toOption = none; rw [hc]; rfl)]
      rw [ih, List.count_cons]
      simp [hfp]
    | ok s2 =>
      by_cases hs2 : s2 = s
      · subst hs2
        have hfp : f = p := hinj f hc
        subst hfp
        rw [List.filterMap_cons_some (by show (getPcStatus f).toOption = some s2; rw [hc]; rfl)]
        simp [List.count_cons, ih]
      · have hfp : f ≠ p := by
          intro h; subst h
          rw [hp] at hc
          exact hs2 (Except.ok.inj hc).symm
        rw [List.filterMap_cons_some (by show (getPcStatus f).toOption = some s2; rw [hc]; rfl)]
        rw [List.count_cons, List.count_cons]
        simp [hfp, hs2, ih]

/-- Claim C10: in default and single-process mode no deduplication is applied
to the combined file list: a path occurring several times among the explicit
arguments, or both as an argument and among the -pid process's open files,
yields one record per occurrence in the final output — the number of records
carrying that path's status equals the number of occurrences of the path. -/
theorem defaultMode_no_deduplication (pidFlag : Int) (args pidFiles : List String)
    (getPcStatus : String → Except String PcStatus) (p : String) (s : PcStatus)
    (hp : getPcStatus p = Except.ok s)
    (hinj : ∀ q, getPcStatus q = Except.ok s → q = p) :
    (defaultModeOutput false getPcStatus
        (args ++ if pidFlag ≠ 0 then pidFiles else [])).count s
      = (args ++ if pidFlag ≠ 0 then pidFiles else []).count p := by
  unfold defaultModeOutput sortStats
  rw [(List.perm_insertionSort (fun a b => pcLess a b = true) _).count_eq]
  rw [getStatsFromFiles_fst]
  exact count_filterMap_toOption getPcStatus p s hp hinj _

/-- Witness for claim C10 at a concrete input: the path /tmp/a passed twice
among three arguments yields two records of its status. -/
theorem defaultMode_no_deduplication_witness :
    (defaultModeOutput false checkAll
        (["/tmp/a", "/tmp/b", "/tmp/a"] ++ if (0 : Int) ≠ 0 then [] else [])).count stA
      = (["/tmp/a", "/tmp/b", "/tmp/a"] ++ if (0 : Int) ≠ 0 then [] else []).count "/tmp/a" :=
  defaultMode_no_deduplication 0 ["/tmp/a", "/tmp/b", "/tmp/a"] [] checkAll "/tmp/a" stA
    rfl
    (fun q hq => by
      by_cases h1 : q = "/tmp/a"
      · exact h1
      · exfalso
        by_cases h2 : q = "/tmp/b"
        · subst h2
          rw [show checkAll "/tmp/b" = Except.ok stB from rfl] at hq
          exact absurd (Except.ok.inj hq) (by decide)
        · by_cases h3 : q = "/tmp/c"
          · subst h3
            rw [show checkAll "/tmp/c" = Except.ok stC from rfl] at hq
            exact absurd (Except.ok.inj hq) (by decide)
          · simp only [checkAll, if_neg h1, if_neg h2, if_neg h3] at hq
            exact Except.noConfusion hq)

/-- Counterexample to claim C3: when reading the fd directory of process 5
fails with a permission error — a message without the no-such-file substring —
getPidLds calls log.Fatalf, aborting the whole run instead of returning an
empty result and continuing. -/
theorem getPidLds_permission_denied_is_fatal :
    getPidLds 5 1 (Except.error "open /proc/5/fd: permission denied") lstatNone evalNone id
      = PidLdsResult.fatal
          "could not open dir '/proc/5/fd': open /proc/5/fd: permission denied" := by decide

/-- Claim C3 as amended: when the per-process fd directory cannot be read,
getPidLds returns an empty result with a skip log line and the run continues
only if the error message contains the no-such-file substring (process
exited); any other read failure, permission denied included, aborts the whole
run through log.Fatalf. -/
theorem getPidLds_readdir_error_behavior (pid selfPid : Int) (err : String)
    (lstat : String → Except String FdInfo) (evalSymlinks : String → Except String String)
    (mapRange : List String → List String) (hne : pid ≠ selfPid) :
    (strContains err noSuchFileMsg = true →
        getPidLds pid selfPid (Except.error err) lstat evalSymlinks mapRange
          = PidLdsResult.ok [] ["skipping " ++ fdDirName pid ++ ": " ++ err]) ∧
      (strContains err noSuchFileMsg = false →
        getPidLds pid selfPid (Except.error err) lstat evalSymlinks mapRange
          = PidLdsResult.fatal ("could not open dir '" ++ fdDirName pid ++ "': " ++ err)) := by
  constructor <;> intro h <;> simp [getPidLds, hne, h]

/-- Witness for the amended claim C3 at a concrete input: a vanished process
directory yields the empty result and a skip log line. -/
theorem getPidLds_readdir_error_behavior_witness :
    getPidLds 5 1 (Except.error "open /proc/5/fd: no such file or directory")
        lstatNone evalNone id
      = PidLdsResult.ok []
          ["skipping /proc/5/fd: open /proc/5/fd: no such file or directory"] :=
  (getPidLds_readdir_error_behavior 5 1 "open /proc/5/fd: no such file or directory"
    lstatNone evalNone id (by decide)).1 (by decide)

/-- Reduction of getPidLds on a directory read error. -/
theorem getPidLds_error_eq (pid selfPid : Int) (err : String)
    (lstat : String → Except String FdInfo) (evalSymlinks : String → Except String String)
    (mapRange : List String → List String) :
    getPidLds pid selfPid (Except.error err) lstat evalSymlinks mapRange
      = if pid = selfPid then PidLdsResult.ok [] []
        else if strContains err noSuchFileMsg then
          PidLdsResult.ok [] ["skipping " ++ fdDirName pid ++ ": " ++ err]
        else
          PidLdsResult.fatal ("could not open dir '" ++ fdDirName pid ++ "': " ++ err) := rfl

/-- Reduction of getPidLds on a successful directory read. -/
theorem getPidLds_ok_eq (pid selfPid : Int) (entries : List FdEntry)
    (lstat : String → Except String FdInfo) (evalSymlinks : String → Except String String)
    (mapRange : List String → List String) :
    getPidLds pid selfPid (Except.ok entries) lstat evalSymlinks mapRange
      = if pid = selfPid then PidLdsResult.ok [] []
        else
          PidLdsResult.ok
            (mapRange (uniqueSlice (entries.filterMap (entryTarget pid lstat evalSymlinks))))
            (entries.filterMap (entryLog pid lstat evalSymlinks)) := rfl

/-- Counterexample to claim C4: with the process traversal, the fd enumeration
and every oracle answer fixed, two runs of getPidLds that differ only in the
order in which Go's map range yields the accepted targets return the path list
in different orders — the list a single process contributes is not
deterministic across runs. -/
theorem getPidLds_depends_on_map_range_order :
    getPidLds 7 1 (Except.ok [fdE0, fdE1]) lstatSym evalTwo id
      ≠ getPidLds 7 1 (Except.ok [fdE0, fdE1]) lstatSym evalTwo List.reverse := by decide

/-- Claim C4 as amended: with the fd enumeration and the oracles fixed, the
path list a process contributes is deterministic only as a set: any two map
iteration orders yield permutations of each other (and identical logs), while
the sequence order itself additionally depends on the map iteration order. -/
theorem getPidLds_deterministic_up_to_permutation (pid selfPid : Int)
    (readDir : Except String (List FdEntry)) (lstat : String → Except String FdInfo)
    (evalSymlinks : String → Except String String)
    (mr1 mr2 : List String → List String)
    (h1 : ∀ l, List.Perm (mr1 l) l) (h2 : ∀ l, List.Perm (mr2 l) l)
    (paths1 logs1 paths2 logs2 : List String)
    (e1 : getPidLds pid selfPid readDir lstat evalSymlinks mr1
        = PidLdsResult.ok paths1 logs1)
    (e2 : getPidLds pid selfPid readDir lstat evalSymlinks mr2
        = PidLdsResult.ok paths2 logs2) :
    List.Perm paths1 paths2 ∧ logs1 = logs2 := by
  cases readDir with
  | error err =>
    rw [getPidLds_error_eq] at e1 e2
    by_cases hp : pid = selfPid
    · rw [if_pos hp] at e1 e2
      obtain ⟨rfl, rfl⟩ := PidLdsResult.ok.inj e1
      obtain ⟨rfl, rfl⟩ := PidLdsResult.ok.inj e2
      exact ⟨List.Perm.refl _, rfl⟩
    · rw [if_neg hp] at e1 e2
      by_cases hc : strContains err noSuchFileMsg = true
      · rw [if_pos hc] at e1 e2
        obtain ⟨rfl, rfl⟩ := PidLdsResult.ok.inj e1
        obtain ⟨rfl, rfl⟩ := PidLdsResult.ok.inj e2
        exact ⟨List.Perm.refl _, rfl⟩
      · rw [if_neg hc] at e1
        exact PidLdsResult.noConfusion e1
  | ok entries =>
    rw [getPidLds_ok_eq] at e1 e2
    by_cases hp : pid = selfPid
    · rw [if_pos hp] at e1 e2
      obtain ⟨rfl, rfl⟩ := PidLdsResult.ok.inj e1
      obtain ⟨rfl, rfl⟩ := PidLdsResult.ok.inj e2
      exact ⟨List.Perm.refl _, rfl⟩
    · rw [if_neg hp] at e1 e2
      obtain ⟨rfl, rfl⟩ := PidLdsResult.ok.inj e1
      obtain ⟨rfl, rfl⟩ := PidLdsResult.ok.inj e2
      exact ⟨(h1 _).trans (h2 _).symm, rfl⟩

/-- Witness for the amended claim C4 at a concrete input: the two orders the
counterexample exhibits are permutations of each other with equal logs. -/
theorem getPidLds_deterministic_up_to_permutation_witness :
    List.Perm ["/fileA", "/fileB"] ["/fileB", "/fileA"] ∧
      ([] : List String) = [] :=
  getPidLds_deterministic_up_to_permutation 7 1 (Except.ok [fdE0, fdE1]) lstatSym evalTwo
    id List.reverse (fun l => List.Perm.refl l) (fun l => List.reverse_perm l)
    ["/fileA", "/fileB"] [] ["/fileB", "/fileA"] [] (by decide) (by decide)

/-- An entry only contributes a target that passed the absolute-path and
pseudo-filesystem filter. -/
theorem entryTarget_keep (pid : Int) (lstat : String → Except String FdInfo)
    (evalSymlinks : String → Except String String) (e : FdEntry) (t : String)
    (h : entryTarget pid lstat evalSymlinks e = some t) : keepTarget t = true := by
  unfold entryTarget at h
  split at h
  · exact Option.noConfusion h
  · split at h
    · exact Option.noConfusion h
    · split at h
      · split at h
        · exact Option.noConfusion h
        · split at h
          · rename_i hk
            cases h
            exact hk
          · exact Option.noConfusion h
      · exact Option.noConfusion h

/-- Claim C8: whatever the process, the oracle answers and the map iteration
order (any order that only permutes the accepted targets), every path in a
successful getPidLds result is absolute and does not lie under /dev or /proc,
even when the descriptor was valid and resolved successfully. -/
theorem getPidLds_paths_absolute_no_pseudo_fs (pid selfPid : Int)
    (readDir : Except String (List FdEntry)) (lstat : String → Except String FdInfo)
    (evalSymlinks : String → Except String String)
    (mapRange : List String → List String)
    (hmr : ∀ (l : List String) (x : String), x ∈ mapRange l → x ∈ l)
    (paths logs : List String)
    (hok : getPidLds pid selfPid readDir lstat evalSymlinks mapRange
        = PidLdsResult.ok paths logs)
    (x : String) (hx : x ∈ paths) :
    strStartsWith x "/" = true ∧ strStartsWith x "/dev" = false ∧
      strStartsWith x "/proc" = false := by
  have hkeep : keepTarget x = true := by
    cases readDir with
    | error err =>
      rw [getPidLds_error_eq] at hok
      by_cases hp : pid = selfPid
      · rw [if_pos hp] at hok
        obtain ⟨rfl, rfl⟩ := PidLdsResult.ok.inj hok
        exact absurd hx (List.not_mem_nil x)
      · rw [if_neg hp] at hok
        by_cases hc : strContains err noSuchFileMsg = true
        · rw [if_pos hc] at hok
          obtain ⟨rfl, rfl⟩ := PidLdsResult.ok.inj hok
          exact absurd hx (List.not_mem_nil x)
        · rw [if_neg hc] at hok
          exact PidLdsResult.noConfusion hok
    | ok entries =>
      rw [getPidLds_ok_eq] at hok
      by_cases hp : pid = selfPid
      · rw [if_pos hp] at hok
        obtain ⟨rfl, rfl⟩ := PidLdsResult.ok.inj hok
        exact absurd hx (List.not_mem_nil x)
      · rw [if_neg hp] at hok
        obtain ⟨rfl, rfl⟩ := PidLdsResult.ok.inj hok
        have hx2 := hmr _ _ hx
        have hx3 : x ∈ entries.filterMap (entryTarget pid lstat evalSymlinks) := by
          have := (mem_uniqueAux (entries.filterMap (entryTarget pid lstat evalSymlinks)) [] x)
          exact (this.mp (by simpa [uniqueSlice] using hx2)).1
        obtain ⟨e, _, he⟩ := List.mem_filterMap.mp hx3
        exact entryTarget_keep pid lstat evalSymlinks e x he
  have h1 : (strStartsWith x "/" && !strStartsWith x "/dev" && !strStartsWith x "/proc")
      = true := hkeep
  simp only [Bool.and_eq_true, Bool.not_eq_true'] at h1
  exact ⟨h1.1.1, h1.1.2, h1.2⟩

/-- Witness for claim C8 at a concrete input: the single resolved target of
the fixture process is absolute and under neither /dev nor /proc. -/
theorem getPidLds_paths_absolute_no_pseudo_fs_witness :
    strStartsWith "/fileA" "/" = true ∧ strStartsWith "/fileA" "/dev" = false ∧
      strStartsWith "/fileA" "/proc" = false :=
  getPidLds_paths_absolute_no_pseudo_fs 7 1 (Except.ok [fdE0]) lstatSym evalTwo id
    (fun _ _ h => h) ["/fileA"] [] (by decide) "/fileA" (by decide)

end HCache
